import Mathlib

/-!
Shallow embedding of the z-MPC protocol core (Rust sources under `src/`):
the curve abstraction (`src/curve/mod.rs` and the per-curve wrappers), the
Laurent-series sharing engine (`src/laurent.rs`), Pedersen commitments
(`src/pedersen.rs`) and the zero-knowledge / Schnorr layer (`src/zkp.rs`).

Modelling conventions:
* Byte strings (`Vec<u8>`) are `List Nat`.
* The external curve libraries (k256, p256, curve25519-dalek) implement a
  prime-order group of order `q`; they are modelled as the ideal cyclic
  group `ℤ/qℤ`, a `Point` being represented by its discrete logarithm with
  respect to the canonical base point.  Point compression is an injective
  encoding of the reduced discrete logarithm.  Scalars keep their byte-level
  representation exactly as the repository stores them (`Scalar.value`).
* Machine integers (`u64`, `usize`, `u32`) are `Nat`.
* Randomised operations (`rand::thread_rng`, `random_scalar`) take the drawn
  value as an explicit argument.
* The external SHA-256 digest (crate `sha2`) is passed in as an explicit
  hash-function argument `H : List Nat → List Nat` wherever the repository
  code invokes it, so theorems can quantify over the hash.
* Fallible Rust code (`Result<T>`) becomes `Except Error T`.
-/

set_option maxRecDepth 40000

namespace ZMPC

/-- Error type, from `src/error.rs` (string payloads kept verbatim where the
claims depend on them). -/
inductive Error where
  | curveError : String → Error
  | laurentError : String → Error
  | commitmentError : String → Error
  | zkProofError : String → Error
  | serializationError : String → Error
  | invalidInput : String → Error
  | insufficientShares : Nat → Nat → Error
  | invalidCurve : String → Error
  | internal : String → Error
deriving DecidableEq, Repr

def exceptDecEq {ε α : Type} [DecidableEq ε] [DecidableEq α] :
    (x y : Except ε α) → Decidable (x = y)
  | .ok a, .ok b =>
    if h : a = b then isTrue (by rw [h]) else isFalse (fun hh => by cases hh; exact h rfl)
  | .error e, .error f =>
    if h : e = f then isTrue (by rw [h]) else isFalse (fun hh => by cases hh; exact h rfl)
  | .ok _, .error _ => isFalse (fun hh => by cases hh)
  | .error _, .ok _ => isFalse (fun hh => by cases hh)

instance {ε α : Type} [DecidableEq ε] [DecidableEq α] : DecidableEq (Except ε α) :=
  exceptDecEq

/-- Curve identifiers, from `src/types.rs`. -/
inductive CurveType where
  | Secp256k1 : CurveType
  | P256 : CurveType
  | Edwards25519 : CurveType
deriving DecidableEq, Repr

/-- Group order `q` of each curve (the scalar-field modulus used by the
respective curve library). -/
def groupOrder : CurveType → Nat
  | .Secp256k1 =>
      115792089237316195423570985008687907852837564279074904382605163141518161494337
  | .P256 =>
      115792089210356248762697446949407573529996955224135760342422259061068512044369
  | .Edwards25519 =>
      7237005577332262213973186563042994240857116359379907606001950938285454250989

/-- ASCII bytes of `CurveType::to_string()`, from the `Display` impl in
`src/types.rs` ("secp256k1" / "p256" / "ed25519"). -/
def curveString : CurveType → List Nat
  | .Secp256k1 => [115, 101, 99, 112, 50, 53, 54, 107, 49]
  | .P256 => [112, 50, 53, 54]
  | .Edwards25519 => [101, 100, 50, 53, 53, 49, 57]

/-- Length in bytes of a compressed point encoding (SEC1 with prefix for the
Weierstrass curves, Edwards-y for ed25519). -/
def compressedLen : CurveType → Nat
  | .Secp256k1 => 33
  | .P256 => 33
  | .Edwards25519 => 32

/-- Big-endian byte encoding of `n` on `len` bytes. -/
def natToBytesBE : Nat → Nat → List Nat
  | 0, _ => []
  | len + 1, n => n / 256 ^ len % 256 :: natToBytesBE len (n % 256 ^ len)

/-- Big-endian interpretation of a byte string. -/
def bytesToNatBE (bs : List Nat) : Nat :=
  bs.foldl (fun acc b => acc * 256 + b) 0

/-- Fuelled modular exponentiation (square and multiply); models the
constant-time field exponentiation of the curve libraries.  The fuel bound
300 covers every exponent below `2^300`, far above any group order used. -/
def powModFuel : Nat → Nat → Nat → Nat → Nat
  | 0, _, _, _ => 1
  | fuel + 1, a, e, m =>
    if e = 0 then 1 % m
    else
      let half := powModFuel fuel (a * a % m) (e / 2) m
      if e % 2 = 1 then half * (a % m) % m else half

/-- Modular inverse by Fermat's little theorem (`a⁻¹ = a^(q-2) mod q`, and 0
maps to 0), matching the curve libraries' `invert` with the repository's
`unwrap_or(ZERO)` fallback. -/
def modInv (a q : Nat) : Nat := powModFuel 300 (a % q) (q - 2) q

/-- Scalar value, from `src/curve/mod.rs`: a curve tag plus the byte string
the repository stores (always a canonical 32-byte encoding when produced by
the library wrappers). -/
structure Scalar where
  curveType : CurveType
  value : List Nat
deriving DecidableEq, Repr

/-- Canonical byte encoding of a reduced scalar: 32-byte big-endian for the
Weierstrass curves (`to_bytes_be`), 32-byte little-endian for ed25519
(dalek's `to_bytes`). -/
def encodeScalar (ct : CurveType) (n : Nat) : List Nat :=
  match ct with
  | .Secp256k1 => natToBytesBE 32 n
  | .P256 => natToBytesBE 32 n
  | .Edwards25519 => (natToBytesBE 32 n).reverse

/-- Byte-string decoding used by every scalar operation: `from_bytes_be` for
secp256k1/P-256 rejects non-canonical input (wrong length or value ≥ q);
dalek's `from_bytes_mod_order` for ed25519 reduces 32 little-endian bytes
modulo q. -/
def decodeScalar (ct : CurveType) (bs : List Nat) : Except Error Nat :=
  match ct with
  | .Secp256k1 =>
    if bs.length = 32 ∧ bytesToNatBE bs < groupOrder ct then .ok (bytesToNatBE bs)
    else .error (.curveError "Invalid scalar bytes")
  | .P256 =>
    if bs.length = 32 ∧ bytesToNatBE bs < groupOrder ct then .ok (bytesToNatBE bs)
    else .error (.curveError "Invalid scalar bytes")
  | .Edwards25519 =>
    if bs.length = 32 then .ok (bytesToNatBE bs.reverse % groupOrder ct)
    else .error (.curveError "Invalid scalar bytes")

/-- `Curve::scalar_from_bytes`: decode, then re-serialise canonically. -/
def scalar_from_bytes (ct : CurveType) (bs : List Nat) : Except Error Scalar :=
  match decodeScalar ct bs with
  | .ok n => .ok ⟨ct, encodeScalar ct n⟩
  | .error e => .error e

/-- `Curve::scalar_from_u64` (a `u64` is below every group order, the
reduction is kept for faithfulness to the library conversion). -/
def scalar_from_u64 (ct : CurveType) (v : Nat) : Except Error Scalar :=
  .ok ⟨ct, encodeScalar ct (v % groupOrder ct)⟩

/-- `Curve::random_scalar` with the drawn value made explicit. -/
def randomScalar (ct : CurveType) (draw : Nat) : Scalar :=
  ⟨ct, encodeScalar ct (draw % groupOrder ct)⟩

/-- `Scalar::add`, from `src/curve/mod.rs`: cross-curve operands are
rejected first, then both operands are decoded and added mod q. -/
def Scalar.add (a b : Scalar) : Except Error Scalar :=
  if a.curveType ≠ b.curveType then
    .error (.curveError "Cannot add scalars from different curves")
  else
    match decodeScalar a.curveType a.value, decodeScalar a.curveType b.value with
    | .ok x, .ok y =>
        .ok ⟨a.curveType, encodeScalar a.curveType ((x + y) % groupOrder a.curveType)⟩
    | .error e, _ => .error e
    | _, .error e => .error e

/-- `Scalar::mul`, from `src/curve/mod.rs`. -/
def Scalar.mul (a b : Scalar) : Except Error Scalar :=
  if a.curveType ≠ b.curveType then
    .error (.curveError "Cannot multiply scalars from different curves")
  else
    match decodeScalar a.curveType a.value, decodeScalar a.curveType b.value with
    | .ok x, .ok y =>
        .ok ⟨a.curveType, encodeScalar a.curveType (x * y % groupOrder a.curveType)⟩
    | .error e, _ => .error e
    | _, .error e => .error e

/-- `Scalar::invert`, from `src/curve/mod.rs`: modular multiplicative
inverse, with 0 mapped to 0 (`invert().unwrap_or(ZERO)`). -/
def Scalar.invert (s : Scalar) : Except Error Scalar :=
  match decodeScalar s.curveType s.value with
  | .ok n => .ok ⟨s.curveType, encodeScalar s.curveType (modInv n (groupOrder s.curveType))⟩
  | .error e => .error e

/-- Curve point, from `src/curve/mod.rs`, in the ideal-group model: the
curve tag plus the discrete logarithm of the point with respect to the
canonical generator. -/
structure Point where
  curveType : CurveType
  log : Nat
deriving DecidableEq, Repr

/-- `Curve::generator`: the canonical base point (discrete log 1). -/
def generatorPoint (ct : CurveType) : Point := ⟨ct, 1⟩

/-- `Point::to_compressed_bytes`: injective encoding of the reduced
discrete logarithm on the curve's compressed length. -/
def Point.to_compressed_bytes (p : Point) : Except Error (List Nat) :=
  .ok (natToBytesBE (compressedLen p.curveType) (p.log % groupOrder p.curveType))

/-- `Point::from_compressed_bytes`: partial inverse of the compressed
encoding. -/
def Point.from_compressed_bytes (ct : CurveType) (bs : List Nat) : Except Error Point :=
  if bs.length = compressedLen ct ∧ bytesToNatBE bs < groupOrder ct then
    .ok ⟨ct, bytesToNatBE bs⟩
  else .error (.curveError "Invalid compressed point")

/-- `Point::add`, from `src/curve/mod.rs`: cross-curve rejection then group
addition. -/
def Point.add (a b : Point) : Except Error Point :=
  if a.curveType ≠ b.curveType then
    .error (.curveError "Cannot add points from different curves")
  else .ok ⟨a.curveType, (a.log + b.log) % groupOrder a.curveType⟩

/-- `Point::mul`, from `src/curve/mod.rs`: cross-curve rejection, scalar
decoding (fallible for the Weierstrass wrappers), then scalar
multiplication. -/
def Point.mul (p : Point) (s : Scalar) : Except Error Point :=
  if p.curveType ≠ s.curveType then
    .error (.curveError "Cannot multiply point by scalar from different curve")
  else
    match decodeScalar p.curveType s.value with
    | .ok n => .ok ⟨p.curveType, p.log * n % groupOrder p.curveType⟩
    | .error e => .error e

/-- Share, from `src/laurent.rs` / `src/types.rs`: participant id, value
bytes, optional attached commitment and proof bytes. -/
structure Share where
  id : Nat
  value : List Nat
  commitment : Option (List Nat)
  proof : Option (List Nat)
deriving DecidableEq, Repr

/-- Reconstruction result, from `src/types.rs`. -/
structure ReconstructionResult where
  secret : List Nat
  valid : Bool
  participants_used : List Nat
deriving DecidableEq, Repr

/-- Laurent series dealer state, from `src/laurent.rs`. -/
structure LaurentSeries where
  curve_type : CurveType
  a_coeffs : List Scalar
  b_coeffs : List Scalar
  threshold : Nat
  participants : Nat
deriving DecidableEq, Repr

/-- The `for _ in 1..exponent` accumulation inside
`LaurentSeries::positive_power_scalar`: `exponent - 1` multiplications of
the accumulator by the base. -/
def powLoop (base : Scalar) : Scalar → Nat → Except Error Scalar
  | result, 0 => .ok result
  | result, n + 1 =>
    match result.mul base with
    | .ok r => powLoop base r n
    | .error e => .error e

/-- `LaurentSeries::positive_power_scalar`: exponent 0 yields the scalar 1,
otherwise the accumulator starts from the base itself. -/
def positive_power_scalar (ct : CurveType) (base : Scalar) (e : Nat) : Except Error Scalar :=
  if e = 0 then scalar_from_u64 ct 1
  else powLoop base base (e - 1)

/-- `LaurentSeries::power_scalar`: non-negative exponents directly, negative
exponents via the positive power followed by `invert`. -/
def power_scalar (ct : CurveType) (base : Scalar) (e : Int) : Except Error Scalar :=
  if 0 ≤ e then positive_power_scalar ct base e.toNat
  else
    match positive_power_scalar ct base (-e).toNat with
    | .ok p => p.invert
    | .error err => .error err

/-- The `A(z)` accumulation loop of
`LaurentSeries::generate_share_for_participant`: for the `k`-th coefficient,
add `a_k * z^k` to the accumulator. -/
def aTermLoop (ct : CurveType) (z : Scalar) : List Scalar → Nat → Scalar → Except Error Scalar
  | [], _, acc => .ok acc
  | aK :: rest, k, acc =>
    match power_scalar ct z (Int.ofNat k) with
    | .error e => .error e
    | .ok zK =>
      match aK.mul zK with
      | .error e => .error e
      | .ok term =>
        match acc.add term with
        | .error e => .error e
        | .ok acc2 => aTermLoop ct z rest (k + 1) acc2

/-- The `B(z)` accumulation loop of
`LaurentSeries::generate_share_for_participant`: for the `k`-th coefficient,
add `b_{-(k+1)} * z^{-(k+1)}` to the accumulator. -/
def bTermLoop (ct : CurveType) (z : Scalar) : List Scalar → Nat → Scalar → Except Error Scalar
  | [], _, acc => .ok acc
  | bK :: rest, k, acc =>
    match power_scalar ct z (-(Int.ofNat k + 1)) with
    | .error e => .error e
    | .ok zNegK =>
      match bK.mul zNegK with
      | .error e => .error e
      | .ok term =>
        match acc.add term with
        | .error e => .error e
        | .ok acc2 => bTermLoop ct z rest (k + 1) acc2

/-- `LaurentSeries::generate_share_for_participant`, from `src/laurent.rs`:
evaluate `f(id) = A(id) + B(id)` and package the bytes as a `Share`. -/
def LaurentSeries.generate_share_for_participant (s : LaurentSeries) (id : Nat) :
    Except Error Share :=
  match scalar_from_u64 s.curve_type id with
  | .error e => .error e
  | .ok z =>
    match scalar_from_u64 s.curve_type 0 with
    | .error e => .error e
    | .ok v0 =>
      match aTermLoop s.curve_type z s.a_coeffs 0 v0 with
      | .error e => .error e
      | .ok v1 =>
        match bTermLoop s.curve_type z s.b_coeffs 0 v1 with
        | .error e => .error e
        | .ok v2 => .ok { id := id, value := v2.value, commitment := none, proof := none }

/-- The `for i in 1..=participants` loop of `LaurentSeries::generate_shares`. -/
def shareLoop (s : LaurentSeries) : List Nat → Except Error (List Share)
  | [] => .ok []
  | i :: rest =>
    match s.generate_share_for_participant i with
    | .error e => .error e
    | .ok sh =>
      match shareLoop s rest with
      | .error e => .error e
      | .ok shs => .ok (sh :: shs)

/-- `LaurentSeries::generate_shares`, from `src/laurent.rs`. -/
def LaurentSeries.generate_shares (s : LaurentSeries) : Except Error (List Share) :=
  shareLoop s ((List.range s.participants).map (fun i => i + 1))

/-- `LaurentSeries::verify_share`, from `src/laurent.rs`: recompute the
share for the same id and compare the value bytes. -/
def LaurentSeries.verify_share (s : LaurentSeries) (share : Share) : Except Error Bool :=
  match s.generate_share_for_participant share.id with
  | .error e => .error e
  | .ok expected => .ok (share.value == expected.value)

/-- The share-summation loop of `LaurentSeries::reconstruct_secret`: decode
each share value, add it to the running secret, record the participant id. -/
def sumLoop (ct : CurveType) : List Share → Scalar → List Nat → Except Error (Scalar × List Nat)
  | [], acc, used => .ok (acc, used)
  | sh :: rest, acc, used =>
    match scalar_from_bytes ct sh.value with
    | .error e => .error e
    | .ok sc =>
      match acc.add sc with
      | .error e => .error e
      | .ok acc2 => sumLoop ct rest acc2 (used ++ [sh.id])

/-- `LaurentSeries::reconstruct_secret`, from `src/laurent.rs`: fewer than
`threshold` shares is `InsufficientShares`; otherwise the first `threshold`
shares are summed (no Lagrange weights) and returned with `valid = true`. -/
def LaurentSeries.reconstruct_secret (s : LaurentSeries) (shares : List Share) :
    Except Error ReconstructionResult :=
  if shares.length < s.threshold then
    .error (.insufficientShares s.threshold shares.length)
  else
    match scalar_from_u64 s.curve_type 0 with
    | .error e => .error e
    | .ok z =>
      match sumLoop s.curve_type (shares.take s.threshold) z [] with
      | .error e => .error e
      | .ok (secret, used) =>
        .ok { secret := secret.value, valid := true, participants_used := used }

/-- Pedersen parameter set, from `src/pedersen.rs`: curve tag plus the two
generators `g` and `h`. -/
structure PedersenCommitment where
  curve_type : CurveType
  g : Point
  h : Point
deriving DecidableEq, Repr

/-- `PedersenCommitment::new`, from `src/pedersen.rs`: `g` is the canonical
generator and `h` is `g` multiplied by a freshly drawn random scalar
(`hDraw` is the value drawn from the process CSPRNG). -/
def PedersenCommitment.new (ct : CurveType) (hDraw : Nat) : Except Error PedersenCommitment :=
  let g := generatorPoint ct
  let h_scalar := randomScalar ct hDraw
  match g.mul h_scalar with
  | .error e => .error e
  | .ok h => .ok ⟨ct, g, h⟩

/-- `PedersenCommitment::commit`: `C = g·value + h·r`, serialised compressed. -/
def PedersenCommitment.commit (pc : PedersenCommitment) (value : Scalar)
    (randomness : List Nat) : Except Error (List Nat) :=
  match scalar_from_bytes pc.curve_type randomness with
  | .error e => .error e
  | .ok r =>
    match pc.g.mul value with
    | .error e => .error e
    | .ok g_value =>
      match pc.h.mul r with
      | .error e => .error e
      | .ok h_r =>
        match g_value.add h_r with
        | .error e => .error e
        | .ok commitment_point => commitment_point.to_compressed_bytes

/-- `PedersenCommitment::commit_share`: decode the share value, then commit
it under 32 freshly drawn random bytes (`internalRand` is the draw); the
drawn bytes are local to this call and are not returned. -/
def PedersenCommitment.commit_share (pc : PedersenCommitment) (share : Share)
    (internalRand : List Nat) : Except Error (List Nat) :=
  match scalar_from_bytes pc.curve_type share.value with
  | .error e => .error e
  | .ok value => pc.commit value internalRand

/-- `PedersenCommitment::verify`: recompute the commitment and compare the
compressed bytes. -/
def PedersenCommitment.verify (pc : PedersenCommitment) (commitment : List Nat)
    (value : Scalar) (randomness : List Nat) : Except Error Bool :=
  match scalar_from_bytes pc.curve_type randomness with
  | .error e => .error e
  | .ok r =>
    match pc.g.mul value with
    | .error e => .error e
    | .ok g_value =>
      match pc.h.mul r with
      | .error e => .error e
      | .ok h_r =>
        match g_value.add h_r with
        | .error e => .error e
        | .ok computed =>
          match computed.to_compressed_bytes with
          | .error e => .error e
          | .ok computed_bytes => .ok (commitment == computed_bytes)

/-- `PedersenCommitment::verify_share_commitment`: decode the share value
then verify. -/
def PedersenCommitment.verify_share_commitment (pc : PedersenCommitment) (share : Share)
    (commitment : List Nat) (randomness : List Nat) : Except Error Bool :=
  match scalar_from_bytes pc.curve_type share.value with
  | .error e => .error e
  | .ok value => pc.verify commitment value randomness

/-- Committed share, from `src/pedersen.rs`. -/
structure CommittedShare where
  share : Share
  commitment : List Nat
  randomness : List Nat
  proofOpt : Option (List Nat)
deriving DecidableEq, Repr

/-- `CommittedShare::new`. -/
def CommittedShare.new (share : Share) (commitment : List Nat) (randomness : List Nat) :
    CommittedShare :=
  ⟨share, commitment, randomness, none⟩

/-- `CommittedShare::verify`, from `src/pedersen.rs`: construct a fresh
`PedersenCommitment` (drawing a fresh random `h`!) and check the stored
commitment against the stored randomness. -/
def CommittedShare.verify (cs : CommittedShare) (ct : CurveType) (hDraw : Nat) :
    Except Error Bool :=
  match PedersenCommitment.new ct hDraw with
  | .error e => .error e
  | .ok pedersen => pedersen.verify_share_commitment cs.share cs.commitment cs.randomness

/-- The per-share loop of `pedersen::utils::commit_all_shares`: for each
share a `storedRand` draw (the bytes recorded in the `CommittedShare`) and
an `internalRand` draw (the bytes `commit_share` actually commits under). -/
def commitAllLoop (pedersen : PedersenCommitment) :
    List (Share × List Nat × List Nat) → Except Error (List CommittedShare)
  | [] => .ok []
  | (share, storedRand, internalRand) :: rest =>
    match pedersen.commit_share share internalRand with
    | .error e => .error e
    | .ok commitment =>
      match commitAllLoop pedersen rest with
      | .error e => .error e
      | .ok css => .ok (CommittedShare.new share commitment storedRand :: css)

/-- `pedersen::utils::commit_all_shares`, from `src/pedersen.rs`: one fresh
parameter set (with random `h`), then for every share a stored randomness
draw and an independent internal commitment randomness draw. -/
def commit_all_shares (withDraws : List (Share × List Nat × List Nat)) (ct : CurveType)
    (hDraw : Nat) : Except Error (List CommittedShare) :=
  match PedersenCommitment.new ct hDraw with
  | .error e => .error e
  | .ok pedersen => commitAllLoop pedersen withDraws

/-- Zero-knowledge proof record, from `src/zkp.rs`. -/
structure ZeroKnowledgeProof where
  curve_type : CurveType
  commitment : List Nat
  challenge : List Nat
  response : List Nat
  public_point : List Nat
deriving DecidableEq, Repr

/-- `ZeroKnowledgeProof::create_challenge_input`, from `src/zkp.rs`: domain
tag "z-mpc-zkp" (ASCII), the curve id string, the commitment bytes and the
auxiliary point bytes. -/
def create_challenge_input (ct : CurveType) (commitment public_point : List Nat) : List Nat :=
  [122, 45, 109, 112, 99, 45, 122, 107, 112] ++ curveString ct ++ commitment ++ public_point

/-- `hash_to_scalar`, from `src/zkp.rs`: the external SHA-256 digest `H` of
the input, interpreted through `scalar_from_bytes`. -/
def hash_to_scalar (H : List Nat → List Nat) (ct : CurveType) (input : List Nat) :
    Except Error Scalar :=
  scalar_from_bytes ct (H input)

/-- `ZeroKnowledgeProof::prove`, from `src/zkp.rs`, with the two CSPRNG
scalar draws `alphaDraw`/`betaDraw` and the hash oracle `H` explicit.  The
source mutates an empty proof in place; the model returns the filled
record. -/
def ZeroKnowledgeProof.prove (H : List Nat → List Nat) (ct : CurveType)
    (pedersen : PedersenCommitment) (value : Scalar) (randomness : List Nat)
    (alphaDraw betaDraw : Nat) : Except Error ZeroKnowledgeProof :=
  let alpha := randomScalar ct alphaDraw
  let beta := randomScalar ct betaDraw
  match pedersen.commit value randomness with
  | .error e => .error e
  | .ok commitment =>
    match pedersen.g.mul alpha with
    | .error e => .error e
    | .ok g_alpha =>
      match pedersen.h.mul beta with
      | .error e => .error e
      | .ok h_beta =>
        match g_alpha.add h_beta with
        | .error e => .error e
        | .ok public_point =>
          match public_point.to_compressed_bytes with
          | .error e => .error e
          | .ok public_point_bytes =>
            match hash_to_scalar H ct (create_challenge_input ct commitment public_point_bytes) with
            | .error e => .error e
            | .ok challenge =>
              match scalar_from_bytes ct challenge.value with
              | .error e => .error e
              | .ok c =>
                match c.mul value with
                | .error e => .error e
                | .ok c_x =>
                  match alpha.add c_x with
                  | .error e => .error e
                  | .ok s1 =>
                    match scalar_from_bytes ct randomness with
                    | .error e => .error e
                    | .ok r =>
                      match c.mul r with
                      | .error e => .error e
                      | .ok c_r =>
                        match beta.add c_r with
                        | .error e => .error e
                        | .ok s2 =>
                          .ok { curve_type := ct, commitment := commitment,
                                challenge := challenge.value,
                                response := s1.value ++ s2.value,
                                public_point := public_point_bytes }

/-- `ZeroKnowledgeProof::verify`, from `src/zkp.rs`: reject responses
shorter than 64 bytes, split off `s₁` and `s₂`, then compare the compressed
bytes of `g·s₁ + h·s₂ + C·(c⁻¹)` — the source computes `c.invert()`, the
modular multiplicative inverse — against the carried auxiliary point.  The
carried challenge is never recomputed from the transcript. -/
def ZeroKnowledgeProof.verify (p : ZeroKnowledgeProof) (pedersen : PedersenCommitment) :
    Except Error Bool :=
  if p.response.length < 64 then .error (.zkProofError "Invalid response length")
  else
    match scalar_from_bytes p.curve_type (p.response.take 32) with
    | .error e => .error e
    | .ok s1 =>
      match scalar_from_bytes p.curve_type ((p.response.drop 32).take 32) with
      | .error e => .error e
      | .ok s2 =>
        match scalar_from_bytes p.curve_type p.challenge with
        | .error e => .error e
        | .ok c =>
          match pedersen.g.mul s1 with
          | .error e => .error e
          | .ok g_s1 =>
            match pedersen.h.mul s2 with
            | .error e => .error e
            | .ok h_s2 =>
              match g_s1.add h_s2 with
              | .error e => .error e
              | .ok temp =>
                match Point.from_compressed_bytes p.curve_type p.commitment with
                | .error e => .error e
                | .ok commitment_point =>
                  match c.invert with
                  | .error e => .error e
                  | .ok c_neg =>
                    match commitment_point.mul c_neg with
                    | .error e => .error e
                    | .ok commitment_c =>
                      match temp.add commitment_c with
                      | .error e => .error e
                      | .ok computed_public =>
                        match computed_public.to_compressed_bytes with
                        | .error e => .error e
                        | .ok computed_bytes => .ok (computed_bytes == p.public_point)

/-- Schnorr signature record, from `src/zkp.rs`. -/
structure SchnorrSignature where
  curve_type : CurveType
  challenge : List Nat
  response : List Nat
  public_key : List Nat
deriving DecidableEq, Repr

/-- `create_schnorr_challenge_input`, from `src/zkp.rs`: domain tag
"z-mpc-schnorr" (ASCII), curve id string, R bytes, public key bytes,
message. -/
def create_schnorr_challenge_input (ct : CurveType) (r public_key message : List Nat) :
    List Nat :=
  [122, 45, 109, 112, 99, 45, 115, 99, 104, 110, 111, 114, 114] ++ curveString ct
    ++ r ++ public_key ++ message

/-- `SchnorrSignature::sign`, from `src/zkp.rs`, with the nonce draw `kDraw`
and the hash oracle `H` explicit. -/
def SchnorrSignature.sign (H : List Nat → List Nat) (ct : CurveType) (message : List Nat)
    (private_key : Scalar) (kDraw : Nat) : Except Error SchnorrSignature :=
  let k := randomScalar ct kDraw
  let g := generatorPoint ct
  match g.mul k with
  | .error e => .error e
  | .ok r_point =>
    match r_point.to_compressed_bytes with
    | .error e => .error e
    | .ok r_bytes =>
      match g.mul private_key with
      | .error e => .error e
      | .ok public_key =>
        match public_key.to_compressed_bytes with
        | .error e => .error e
        | .ok public_key_bytes =>
          match hash_to_scalar H ct
              (create_schnorr_challenge_input ct r_bytes public_key_bytes message) with
          | .error e => .error e
          | .ok challenge =>
            match scalar_from_bytes ct challenge.value with
            | .error e => .error e
            | .ok c =>
              match c.mul private_key with
              | .error e => .error e
              | .ok c_sk =>
                match k.add c_sk with
                | .error e => .error e
                | .ok s =>
                  .ok { curve_type := ct, challenge := challenge.value,
                        response := s.value, public_key := public_key_bytes }

/-- `SchnorrSignature::verify`, from `src/zkp.rs`: the source computes
`c_p = P·c` and never uses it, then computes `R' = s·G + P·(c⁻¹)` using
`c.invert()` (modular inverse, despite the comment saying `s*G - c*P`),
re-derives the challenge over `R'` and accepts iff it matches the carried
challenge. -/
def SchnorrSignature.verify (H : List Nat → List Nat) (sig : SchnorrSignature)
    (message : List Nat) : Except Error Bool :=
  match scalar_from_bytes sig.curve_type sig.response with
  | .error e => .error e
  | .ok s =>
    match scalar_from_bytes sig.curve_type sig.challenge with
    | .error e => .error e
    | .ok c =>
      let g := generatorPoint sig.curve_type
      match Point.from_compressed_bytes sig.curve_type sig.public_key with
      | .error e => .error e
      | .ok public_key =>
        match g.mul s with
        | .error e => .error e
        | .ok s_g =>
          match public_key.mul c with
          | .error e => .error e
          | .ok _c_p =>
            match c.invert with
            | .error e => .error e
            | .ok c_neg =>
              match public_key.mul c_neg with
              | .error e => .error e
              | .ok c_neg_p =>
                match s_g.add c_neg_p with
                | .error e => .error e
                | .ok r_prime =>
                  match r_prime.to_compressed_bytes with
                  | .error e => .error e
                  | .ok r_prime_bytes =>
                    match hash_to_scalar H sig.curve_type
                        (create_schnorr_challenge_input sig.curve_type r_prime_bytes
                          sig.public_key message) with
                    | .error e => .error e
                    | .ok computed_challenge => .ok (computed_challenge.value == sig.challenge)

/-- Spec-side helper: decode the value bytes of a list of shares the way
`reconstruct_secret` decodes each of them (`curve.scalar_from_bytes`),
returning the decoded numeric values. -/
def decodeShareValues (ct : CurveType) : List Share → Except Error (List Nat)
  | [] => .ok []
  | sh :: rest =>
    match decodeScalar ct sh.value with
    | .error e => .error e
    | .ok n =>
      match decodeShareValues ct rest with
      | .error e => .error e
      | .ok ns => .ok (n :: ns)

/- ————————————————————————————————————————————————————————————————————
   Helper lemmas about the byte encodings and the scalar operations.
   ———————————————————————————————————————————————————————————————————— -/

theorem natToBytesBE_length (len : Nat) : ∀ n, (natToBytesBE len n).length = len := by
  induction len with
  | zero => intro n; rfl
  | succ k ih => intro n; simp [natToBytesBE, ih]

theorem natToBytesBE_foldl (len : Nat) : ∀ n a, n < 256 ^ len →
    (natToBytesBE len n).foldl (fun acc b => acc * 256 + b) a = a * 256 ^ len + n := by
  induction len with
  | zero =>
    intro n a h
    simp [natToBytesBE]
    omega
  | succ k ih =>
    intro n a h
    have hdiv : n / 256 ^ k < 256 := by
      have : n < 256 ^ k * 256 := by
        have := h
        rw [pow_succ] at this
        exact this
      exact Nat.div_lt_of_lt_mul (by omega)
    have hmod : n % 256 ^ k < 256 ^ k := Nat.mod_lt _ (Nat.pos_pow_of_pos k (by omega))
    simp only [natToBytesBE, List.foldl_cons]
    rw [Nat.mod_eq_of_lt hdiv, ih (n % 256 ^ k) _ hmod, pow_succ]
    conv_rhs => rw [← Nat.div_add_mod n (256 ^ k)]
    ring

theorem bytesToNatBE_natToBytesBE (len n : Nat) (h : n < 256 ^ len) :
    bytesToNatBE (natToBytesBE len n) = n := by
  unfold bytesToNatBE
  rw [natToBytesBE_foldl len n 0 h]
  omega

theorem groupOrder_pos (ct : CurveType) : 0 < groupOrder ct := by
  cases ct <;> decide

theorem groupOrder_lt (ct : CurveType) : groupOrder ct < 256 ^ 32 := by
  cases ct <;> decide

theorem decode_encode (ct : CurveType) (n : Nat) (h : n < groupOrder ct) :
    decodeScalar ct (encodeScalar ct n) = .ok n := by
  have h32 : n < 256 ^ 32 := lt_trans h (groupOrder_lt ct)
  cases ct <;>
    simp [decodeScalar, encodeScalar, natToBytesBE_length, List.reverse_reverse,
      bytesToNatBE_natToBytesBE 32 n h32, h, Nat.mod_eq_of_lt h]

theorem decodeScalar_lt (ct : CurveType) (bs : List Nat) (n : Nat)
    (h : decodeScalar ct bs = .ok n) : n < groupOrder ct := by
  cases ct <;> simp only [decodeScalar] at h <;> split at h <;>
    first
      | (injection h with h2; subst h2; first
          | omega
          | exact Nat.mod_lt _ (groupOrder_pos _))
      | cases h

theorem scalar_add_enc (ct : CurveType) (x y : Nat) (hx : x < groupOrder ct)
    (hy : y < groupOrder ct) :
    Scalar.add ⟨ct, encodeScalar ct x⟩ ⟨ct, encodeScalar ct y⟩
      = .ok ⟨ct, encodeScalar ct ((x + y) % groupOrder ct)⟩ := by
  unfold Scalar.add
  simp [decode_encode ct x hx, decode_encode ct y hy]

theorem scalar_from_bytes_ok (ct : CurveType) (bs : List Nat) (n : Nat)
    (h : decodeScalar ct bs = .ok n) :
    scalar_from_bytes ct bs = .ok ⟨ct, encodeScalar ct n⟩ := by
  unfold scalar_from_bytes
  rw [h]

theorem sumLoop_spec (ct : CurveType) (l : List Share) : ∀ (ns : List Nat) (acc : Nat)
    (used : List Nat), acc < groupOrder ct → decodeShareValues ct l = .ok ns →
    sumLoop ct l ⟨ct, encodeScalar ct acc⟩ used
      = .ok (⟨ct, encodeScalar ct ((acc + ns.sum) % groupOrder ct)⟩,
             used ++ l.map Share.id) := by
  induction l with
  | nil =>
    intro ns acc used hacc hdec
    simp only [decodeShareValues] at hdec
    injection hdec with h2
    subst h2
    simp [sumLoop, Nat.mod_eq_of_lt hacc]
  | cons sh rest ih =>
    intro ns acc used hacc hdec
    simp only [decodeShareValues] at hdec
    rcases hv : decodeScalar ct sh.value with e | n
    · rw [hv] at hdec; cases hdec
    · rw [hv] at hdec
      rcases hr : decodeShareValues ct rest with e | ns2
      · rw [hr] at hdec; cases hdec
      · rw [hr] at hdec
        injection hdec with h2
        subst h2
        have hn := decodeScalar_lt ct sh.value n hv
        simp only [sumLoop, scalar_from_bytes_ok ct sh.value n hv,
          scalar_add_enc ct acc n hacc hn]
        rw [ih ns2 ((acc + n) % groupOrder ct) (used ++ [sh.id])
          (Nat.mod_lt _ (groupOrder_pos ct)) hr]
        rw [Nat.mod_add_mod]
        simp [Nat.add_assoc]

/- ————————————————————————————————————————————————————————————————————
   Claim theorems.
   ———————————————————————————————————————————————————————————————————— -/

/-- Claim C1 (amended): for every LaurentSeries and list of shares, fewer
than `threshold` shares yields `InsufficientShares{required = threshold,
got = length}`; otherwise, provided the value bytes of the first
`threshold` shares all decode to scalars, the result is `Ok` with secret
the canonical encoding of the sum of the decoded values over ℤ/qℤ,
`valid = true`, and `participants_used` the ids of those first `threshold`
shares in list order. -/
theorem c1_reconstruct_secret_spec (s : LaurentSeries) (shares : List Share) :
    (shares.length < s.threshold →
      s.reconstruct_secret shares
        = .error (.insufficientShares s.threshold shares.length))
    ∧ (∀ ns : List Nat, s.threshold ≤ shares.length →
        decodeShareValues s.curve_type (shares.take s.threshold) = .ok ns →
        s.reconstruct_secret shares
          = .ok { secret := encodeScalar s.curve_type (ns.sum % groupOrder s.curve_type),
                  valid := true,
                  participants_used := (shares.take s.threshold).map Share.id }) := by
  constructor
  · intro h
    unfold LaurentSeries.reconstruct_secret
    rw [if_pos h]
  · intro ns hlen hdec
    unfold LaurentSeries.reconstruct_secret
    rw [if_neg (by omega)]
    simp only [scalar_from_u64, Nat.zero_mod]
    rw [sumLoop_spec s.curve_type (shares.take s.threshold) ns 0 [] (groupOrder_pos _) hdec]
    simp

/-- Claim C1, counterexample to the claim as stated: with threshold 2, a
list of two shares whose first value is a single byte (which
`scalar_from_bytes` rejects on secp256k1) makes `reconstruct_secret`
return a `CurveError`, not the claimed `Ok`. -/
theorem c1_counterexample :
    2 ≤ ([⟨1, [0], none, none⟩, ⟨2, natToBytesBE 32 1, none, none⟩] : List Share).length
    ∧ LaurentSeries.reconstruct_secret ⟨.Secp256k1, [], [], 2, 3⟩
        [⟨1, [0], none, none⟩, ⟨2, natToBytesBE 32 1, none, none⟩]
      = .error (.curveError "Invalid scalar bytes") := by
  constructor
  · decide
  · decide

/-- Claim C1, witness: the amended theorem applied at a concrete series
(secp256k1, threshold 2) and share lists of length 3 and 1. -/
theorem c1_witness :
    LaurentSeries.reconstruct_secret ⟨.Secp256k1, [], [], 2, 3⟩
        [⟨1, natToBytesBE 32 5, none, none⟩, ⟨2, natToBytesBE 32 7, none, none⟩,
         ⟨3, natToBytesBE 32 9, none, none⟩]
      = .ok { secret := encodeScalar .Secp256k1 (([5, 7] : List Nat).sum % groupOrder .Secp256k1),
              valid := true, participants_used := [1, 2] }
    ∧ LaurentSeries.reconstruct_secret ⟨.Secp256k1, [], [], 2, 3⟩
        [⟨1, natToBytesBE 32 5, none, none⟩]
      = .error (.insufficientShares 2 1) := by
  constructor
  · exact (c1_reconstruct_secret_spec ⟨.Secp256k1, [], [], 2, 3⟩
      [⟨1, natToBytesBE 32 5, none, none⟩, ⟨2, natToBytesBE 32 7, none, none⟩,
       ⟨3, natToBytesBE 32 9, none, none⟩]).2 [5, 7] (by decide) (by decide)
  · exact (c1_reconstruct_secret_spec ⟨.Secp256k1, [], [], 2, 3⟩
      [⟨1, natToBytesBE 32 5, none, none⟩]).1 (by decide)

/-- Helper for C9: a share produced by
`generate_share_for_participant id` carries exactly that id. -/
theorem gsfp_ok_id (s : LaurentSeries) (id : Nat) (sh : Share)
    (h : s.generate_share_for_participant id = .ok sh) : sh.id = id := by
  unfold LaurentSeries.generate_share_for_participant at h
  simp only [scalar_from_u64] at h
  split at h
  · cases h
  · split at h
    · cases h
    · injection h with h2
      rw [← h2]

/-- Helper for C9: every share in a successful `shareLoop` run is the
output of `generate_share_for_participant` for some id. -/
theorem shareLoop_mem (s : LaurentSeries) : ∀ (ids : List Nat) (shs : List Share),
    shareLoop s ids = .ok shs → ∀ sh ∈ shs,
      ∃ i, s.generate_share_for_participant i = .ok sh := by
  intro ids
  induction ids with
  | nil =>
    intro shs h sh hmem
    simp only [shareLoop] at h
    injection h with h2
    subst h2
    cases hmem
  | cons i rest ih =>
    intro shs h sh hmem
    simp only [shareLoop] at h
    rcases hg : s.generate_share_for_participant i with e | sh0
    · rw [hg] at h; cases h
    · rw [hg] at h
      rcases hrest : shareLoop s rest with e | shs2
      · rw [hrest] at h; cases h
      · rw [hrest] at h
        injection h with h2
        subst h2
        rcases List.mem_cons.mp hmem with heq | hmem2
        · exact ⟨i, by rw [heq]; exact hg⟩
        · exact ih shs2 hrest sh hmem2

/-- Claim C9: every share in a successful `generate_shares` output passes
`verify_share` (returns `Ok(true)`), because share generation from the
fixed coefficients is deterministic. -/
theorem c9_generated_shares_verify (s : LaurentSeries) (shs : List Share) (sh : Share)
    (h1 : s.generate_shares = .ok shs) (h2 : sh ∈ shs) :
    s.verify_share sh = .ok true := by
  obtain ⟨i, hg⟩ := shareLoop_mem s _ shs h1 sh h2
  have hid := gsfp_ok_id s i sh hg
  unfold LaurentSeries.verify_share
  rw [hid, hg]
  simp

/-- Claim C9, witness: a concrete secp256k1 series (threshold 2, two
participants, all-zero coefficients) whose generated shares verify. -/
theorem c9_witness :
    LaurentSeries.generate_shares ⟨.Secp256k1, [⟨.Secp256k1, natToBytesBE 32 0⟩,
        ⟨.Secp256k1, natToBytesBE 32 0⟩], [⟨.Secp256k1, natToBytesBE 32 0⟩,
        ⟨.Secp256k1, natToBytesBE 32 0⟩], 2, 2⟩
      = .ok [⟨1, natToBytesBE 32 0, none, none⟩, ⟨2, natToBytesBE 32 0, none, none⟩]
    ∧ LaurentSeries.verify_share ⟨.Secp256k1, [⟨.Secp256k1, natToBytesBE 32 0⟩,
        ⟨.Secp256k1, natToBytesBE 32 0⟩], [⟨.Secp256k1, natToBytesBE 32 0⟩,
        ⟨.Secp256k1, natToBytesBE 32 0⟩], 2, 2⟩ ⟨1, natToBytesBE 32 0, none, none⟩
      = .ok true := by
  constructor
  · decide
  · exact c9_generated_shares_verify _ [⟨1, natToBytesBE 32 0, none, none⟩,
      ⟨2, natToBytesBE 32 0, none, none⟩] ⟨1, natToBytesBE 32 0, none, none⟩
      (by decide) (by decide)

/-- Claim C10: whenever `reconstruct_secret` returns `Ok`, the `valid`
flag of the result is `true` — it is set unconditionally by the code. -/
theorem c10_reconstruct_valid_flag (s : LaurentSeries) (shares : List Share)
    (r : ReconstructionResult) (h : s.reconstruct_secret shares = .ok r) :
    r.valid = true := by
  unfold LaurentSeries.reconstruct_secret at h
  split at h
  · cases h
  · simp only [scalar_from_u64] at h
    split at h
    · cases h
    · injection h with h2
      rw [← h2]

/-- Claim C10, witness: the flag theorem applied at a concrete successful
reconstruction. -/
theorem c10_witness :
    LaurentSeries.reconstruct_secret ⟨.Secp256k1, [], [], 2, 3⟩
        [⟨1, natToBytesBE 32 5, none, none⟩, ⟨2, natToBytesBE 32 7, none, none⟩,
         ⟨3, natToBytesBE 32 9, none, none⟩]
      = .ok ⟨natToBytesBE 32 12, true, [1, 2]⟩
    ∧ (ReconstructionResult.mk (natToBytesBE 32 12) true [1, 2]).valid = true := by
  constructor
  · decide
  · exact c10_reconstruct_valid_flag ⟨.Secp256k1, [], [], 2, 3⟩
      [⟨1, natToBytesBE 32 5, none, none⟩, ⟨2, natToBytesBE 32 7, none, none⟩,
       ⟨3, natToBytesBE 32 9, none, none⟩] _ (by decide)

/-- Claim C8: cross-curve operands make `Scalar::add`, `Scalar::mul`,
`Point::add` and `Point::mul` return a `CurveError` and never a value. -/
theorem c8_cross_curve_rejection (a b : Scalar) (p q : Point) (t : Scalar) :
    (a.curveType ≠ b.curveType →
      a.add b = .error (.curveError "Cannot add scalars from different curves")
      ∧ a.mul b = .error (.curveError "Cannot multiply scalars from different curves"))
    ∧ (p.curveType ≠ q.curveType →
      p.add q = .error (.curveError "Cannot add points from different curves"))
    ∧ (p.curveType ≠ t.curveType →
      p.mul t = .error (.curveError "Cannot multiply point by scalar from different curve")) := by
  refine ⟨fun h => ⟨?_, ?_⟩, fun h => ?_, fun h => ?_⟩
  · unfold Scalar.add; rw [if_pos h]
  · unfold Scalar.mul; rw [if_pos h]
  · unfold Point.add; rw [if_pos h]
  · unfold Point.mul; rw [if_pos h]

/-- Claim C8, witness: the rejection theorem applied at concrete
mixed-curve scalars and points. -/
theorem c8_witness :
    Scalar.add ⟨.Secp256k1, []⟩ ⟨.P256, []⟩
      = .error (.curveError "Cannot add scalars from different curves")
    ∧ Scalar.mul ⟨.Secp256k1, []⟩ ⟨.P256, []⟩
      = .error (.curveError "Cannot multiply scalars from different curves")
    ∧ Point.add ⟨.Secp256k1, 0⟩ ⟨.Edwards25519, 0⟩
      = .error (.curveError "Cannot add points from different curves")
    ∧ Point.mul ⟨.Secp256k1, 0⟩ ⟨.P256, []⟩
      = .error (.curveError "Cannot multiply point by scalar from different curve") := by
  have h := c8_cross_curve_rejection ⟨.Secp256k1, []⟩ ⟨.P256, []⟩ ⟨.Secp256k1, 0⟩
    ⟨.Edwards25519, 0⟩ ⟨.P256, []⟩
  exact ⟨(h.1 (by decide)).1, (h.1 (by decide)).2, h.2.1 (by decide), h.2.2 (by decide)⟩

/-- Every error produced by `decodeScalar` is a `CurveError`. -/
theorem decodeScalar_err (ct : CurveType) (bs : List Nat) (e : Error)
    (h : decodeScalar ct bs = .error e) : ∃ msg, e = .curveError msg := by
  cases ct <;> simp only [decodeScalar] at h <;> split at h <;>
    first
      | (injection h with h2; exact ⟨_, h2.symm⟩)
      | cases h

/-- Every error produced by `scalar_from_bytes` is a `CurveError`. -/
theorem scalar_from_bytes_err (ct : CurveType) (bs : List Nat) (e : Error)
    (h : scalar_from_bytes ct bs = .error e) : ∃ msg, e = .curveError msg := by
  unfold scalar_from_bytes at h
  rcases hd : decodeScalar ct bs with e1 | n
  · rw [hd] at h
    injection h with h2
    subst h2
    exact decodeScalar_err ct bs e1 hd
  · rw [hd] at h; cases h

/-- Every error produced by `Scalar::invert` is a `CurveError`. -/
theorem scalar_invert_err (a : Scalar) (e : Error)
    (h : a.invert = .error e) : ∃ msg, e = .curveError msg := by
  unfold Scalar.invert at h
  rcases hd : decodeScalar a.curveType a.value with e1 | n
  · rw [hd] at h
    injection h with h2
    subst h2
    exact decodeScalar_err _ _ e1 hd
  · rw [hd] at h; cases h

/-- Every error produced by `Point::mul` is a `CurveError`. -/
theorem point_mul_err (p : Point) (a : Scalar) (e : Error)
    (h : p.mul a = .error e) : ∃ msg, e = .curveError msg := by
  unfold Point.mul at h
  split at h
  · injection h with h2; exact ⟨_, h2.symm⟩
  · rcases hd : decodeScalar p.curveType a.value with e1 | n
    · rw [hd] at h
      injection h with h2
      subst h2
      exact decodeScalar_err _ _ e1 hd
    · rw [hd] at h; cases h

/-- Every error produced by `Point::add` is a `CurveError`. -/
theorem point_add_err (p q : Point) (e : Error)
    (h : p.add q = .error e) : ∃ msg, e = .curveError msg := by
  unfold Point.add at h
  split at h
  · injection h with h2; exact ⟨_, h2.symm⟩
  · cases h

/-- Every error produced by `Point::from_compressed_bytes` is a
`CurveError`. -/
theorem point_from_compressed_err (ct : CurveType) (bs : List Nat) (e : Error)
    (h : Point.from_compressed_bytes ct bs = .error e) : ∃ msg, e = .curveError msg := by
  unfold Point.from_compressed_bytes at h
  split at h
  · cases h
  · injection h with h2; exact ⟨_, h2.symm⟩

/-- `Point::to_compressed_bytes` never fails in the ideal-group model. -/
theorem point_to_compressed_err (p : Point) (e : Error)
    (h : p.to_compressed_bytes = .error e) : ∃ msg, e = .curveError msg := by
  simp [Point.to_compressed_bytes] at h

/-- Once the length check has passed, every error `verify` can produce is
a `CurveError` — in particular never the malformed-response-length
`ZKProofError`. -/
theorem verify_err_curve (p : ZeroKnowledgeProof) (pd : PedersenCommitment) (e : Error)
    (hlen : ¬ p.response.length < 64) (h : p.verify pd = .error e) :
    ∃ msg, e = .curveError msg := by
  unfold ZeroKnowledgeProof.verify at h
  rw [if_neg hlen] at h
  repeat' split at h
  any_goals cases h
  all_goals rename_i x hq
  all_goals
    first
      | exact scalar_from_bytes_err _ _ _ hq
      | exact point_mul_err _ _ _ hq
      | exact point_add_err _ _ _ hq
      | exact point_from_compressed_err _ _ _ hq
      | exact scalar_invert_err _ _ hq
      | exact point_to_compressed_err _ _ hq

/-- Claim C7 (amended): `ZeroKnowledgeProof::verify` returns the
malformed-response-length `ZKProofError` exactly when the response is
SHORTER than 64 bytes; responses of length 64 or more pass the length
check (only their first 64 bytes are used), so over-long responses are
not rejected by it. -/
theorem c7_response_length_check (p : ZeroKnowledgeProof) (pd : PedersenCommitment) :
    p.verify pd = .error (.zkProofError "Invalid response length")
      ↔ p.response.length < 64 := by
  constructor
  · intro h
    by_contra hlen
    obtain ⟨m, hm⟩ := verify_err_curve p pd _ hlen h
    cases hm
  · intro h
    unfold ZeroKnowledgeProof.verify
    rw [if_pos h]

/-- Claim C7, counterexample to the claim as stated: a proof whose
response is 65 bytes long (64 valid bytes plus one extra) is not
rejected — `verify` returns `Ok(true)` for it. -/
theorem c7_counterexample :
    (natToBytesBE 32 0 ++ natToBytesBE 32 0 ++ [0]).length ≠ 64
    ∧ ZeroKnowledgeProof.verify
        ⟨.Secp256k1, natToBytesBE 33 0, natToBytesBE 32 0,
         natToBytesBE 32 0 ++ natToBytesBE 32 0 ++ [0], natToBytesBE 33 0⟩
        ⟨.Secp256k1, ⟨.Secp256k1, 1⟩, ⟨.Secp256k1, 2⟩⟩
      = .ok true := by
  constructor
  · decide
  · decide

/-- Claim C2, evaluation at the failing input: completeness fails.  With
parameters g, h = 2·g on secp256k1, value x = 1, randomness r = 0 (32 zero
bytes), prover draws α = β = 0 and a hash digest equal to the 32-byte
encoding of 1, `prove` succeeds but `verify` of the produced proof returns
`Ok(false)`: the verifier computes `g·s₁ + h·s₂ + C·(c⁻¹)` — `c.invert()`
is the modular inverse, not the negation its own comment `C^(-c)`
describes — which differs from the auxiliary point A. -/
theorem c2_prove_verify_fails :
    decodeScalar .Secp256k1 (natToBytesBE 32 1) = .ok 1
    ∧ decodeScalar .Secp256k1 (natToBytesBE 32 0) = .ok 0
    ∧ Except.bind
        (ZeroKnowledgeProof.prove (fun _ => natToBytesBE 32 1) .Secp256k1
          ⟨.Secp256k1, ⟨.Secp256k1, 1⟩, ⟨.Secp256k1, 2⟩⟩
          ⟨.Secp256k1, natToBytesBE 32 1⟩ (natToBytesBE 32 0) 0 0)
        (fun pf => pf.verify ⟨.Secp256k1, ⟨.Secp256k1, 1⟩, ⟨.Secp256k1, 2⟩⟩)
      = .ok false := by
  refine ⟨by decide, by decide, by decide⟩

/-- Claim C3, evaluation at the failing input: Schnorr completeness fails.
Signing "hello" on secp256k1 with private key 1 and nonce draw 1, under a
transcript-sensitive hash oracle, produces a signature `verify` rejects:
the verifier computes `R' = s·G + P·(c⁻¹)` — `c.invert()` is the modular
inverse, not the negation of the comment `R' = s*G - c*P` — so the
re-derived challenge differs from the carried one. -/
theorem c3_sign_verify_fails :
    Except.bind
        (SchnorrSignature.sign (fun bs => natToBytesBE 32 (bytesToNatBE bs % 1009))
          .Secp256k1 [104, 101, 108, 108, 111] ⟨.Secp256k1, natToBytesBE 32 1⟩ 1)
        (fun sig => SchnorrSignature.verify
          (fun bs => natToBytesBE 32 (bytesToNatBE bs % 1009)) sig
          [104, 101, 108, 108, 111])
      = .ok false := by
  decide

/-- Claim C4, evaluation at the failing input: `PedersenCommitment::new`
does not derive `h` by deterministic hash-to-curve.  Two constructions
with successive CSPRNG draws 2 and 3 give different `h`, and `h` is
exactly `g` multiplied by the drawn (hence known) scalar. -/
theorem c4_h_is_random_multiple_of_g :
    PedersenCommitment.new .Secp256k1 2
      = .ok ⟨.Secp256k1, ⟨.Secp256k1, 1⟩, ⟨.Secp256k1, 2⟩⟩
    ∧ PedersenCommitment.new .Secp256k1 3
      = .ok ⟨.Secp256k1, ⟨.Secp256k1, 1⟩, ⟨.Secp256k1, 3⟩⟩
    ∧ (⟨.Secp256k1, 2⟩ : Point) ≠ ⟨.Secp256k1, 3⟩
    ∧ Point.mul (generatorPoint .Secp256k1) (randomScalar .Secp256k1 2)
      = .ok ⟨.Secp256k1, 2⟩ := by
  refine ⟨by decide, by decide, by decide, by decide⟩

/-- Claim C5, evaluation at the failing input: `verify` never re-derives
the challenge.  Two proofs that agree on commitment, response and
auxiliary point but carry different challenges are both accepted with
`Ok(true)`; since a recomputed `H(DS, curve_id, C, A)` has a single value,
at least one of the two carried challenges differs from it, and `verify`
accepted it anyway. -/
theorem c5_verify_ignores_challenge :
    ZeroKnowledgeProof.verify
        ⟨.Secp256k1, natToBytesBE 33 0, natToBytesBE 32 0,
         natToBytesBE 32 0 ++ natToBytesBE 32 0, natToBytesBE 33 0⟩
        ⟨.Secp256k1, ⟨.Secp256k1, 1⟩, ⟨.Secp256k1, 2⟩⟩
      = .ok true
    ∧ ZeroKnowledgeProof.verify
        ⟨.Secp256k1, natToBytesBE 33 0, natToBytesBE 32 1,
         natToBytesBE 32 0 ++ natToBytesBE 32 0, natToBytesBE 33 0⟩
        ⟨.Secp256k1, ⟨.Secp256k1, 1⟩, ⟨.Secp256k1, 2⟩⟩
      = .ok true
    ∧ natToBytesBE 32 0 ≠ natToBytesBE 32 1 := by
  refine ⟨by decide, by decide, by decide⟩

/-- Claim C6: `CommittedShare::verify` is not deterministic in its
arguments and honest outputs of `commit_all_shares` need not verify.
First part: the same committed share verifies `Ok(true)` under one fresh
`h` draw and `Ok(false)` under another.  Second part: `commit_all_shares`
commits each share under an internal fresh randomness draw while storing
an independent randomness draw, and the committed share it produces
verifies `Ok(false)`. -/
theorem c6_committed_share_verify_nondeterministic :
    CommittedShare.verify
        ⟨⟨1, natToBytesBE 32 1, none, none⟩, natToBytesBE 33 3, natToBytesBE 32 1, none⟩
        .Secp256k1 2
      = .ok true
    ∧ CommittedShare.verify
        ⟨⟨1, natToBytesBE 32 1, none, none⟩, natToBytesBE 33 3, natToBytesBE 32 1, none⟩
        .Secp256k1 3
      = .ok false
    ∧ commit_all_shares
        [(⟨1, natToBytesBE 32 1, none, none⟩, natToBytesBE 32 0, natToBytesBE 32 1)]
        .Secp256k1 1
      = .ok [⟨⟨1, natToBytesBE 32 1, none, none⟩, natToBytesBE 33 2, natToBytesBE 32 0, none⟩]
    ∧ CommittedShare.verify
        ⟨⟨1, natToBytesBE 32 1, none, none⟩, natToBytesBE 33 2, natToBytesBE 32 0, none⟩
        .Secp256k1 5
      = .ok false := by
  refine ⟨by decide, by decide, by decide, by decide⟩

end ZMPC
